import Mathlib

set_option autoImplicit false

namespace Kosu

/-- Quota window state of `RateLimiter` (ratelimiter.py): the constructor
arguments `period` and `limit`, and the fields `_remaining` and `_reset_at`.
Timestamps and durations are modelled as natural numbers; the permit counter
is a Python integer, modelled as `Int`. -/
structure Window where
  period : Nat
  limit : Int
  remaining : Int
  reset_at : Nat
deriving DecidableEq

/-- The `is_rate_limited` property (ratelimiter.py lines 52-63): when
`_reset_at <= now` it resets `_remaining` to `limit`, sets `_reset_at` to
`now + period` and reports `false`; otherwise it mutates nothing and reports
whether `_remaining <= 0`.  Returns the possibly mutated window together with
the reported boolean. -/
def Window.is_rate_limited (w : Window) (now : Nat) : Window × Bool :=
  if w.reset_at ≤ now then
    ({ w with remaining := w.limit, reset_at := now + w.period }, false)
  else
    (w, decide (w.remaining ≤ 0))

/-- Window state of a freshly constructed `RateLimiter` (lines 42-46):
`_remaining = limit` and `_reset_at = 0`. -/
def initWindow (period : Nat) (limit : Int) : Window :=
  { period := period, limit := limit, remaining := limit, reset_at := 0 }

/-- Program counter of the drain coroutine `_iter_queue` between its
suspension points: `scheduled` means the task has been created but its body
has not started; `sleeping wake` means it is suspended in `asyncio.sleep`
until time `wake`.  All code between suspension points runs atomically. -/
inductive LoopPC where
  | scheduled : LoopPC
  | sleeping (wake : Nat) : LoopPC
deriving DecidableEq

/-- The inner drain loop of `_iter_queue` (lines 93-96): while
`not self.is_rate_limited and self._queue`, decrement `_remaining` and signal
the head waiter.  The short-circuit order matters: `is_rate_limited` (with
its rollover side effect) is evaluated before the queue emptiness test.
Returns the final window, the signaled waiters in order, and the remaining
queue.  The loop contains no await, so it is one atomic segment. -/
def drain (now : Nat) : Window → List Nat → Window × List Nat × List Nat
  | w, [] => ((w.is_rate_limited now).1, [], [])
  | w, e :: rest =>
    let p := w.is_rate_limited now
    if p.2 then (p.1, [], e :: rest)
    else
      let r := drain now { p.1 with remaining := p.1.remaining - 1 } rest
      (r.1, e :: r.2.1, r.2.2)

/-- State of one `RateLimiter` instance: quota window, FIFO queue of waiter
identifiers (`_queue`), and the task handle `_task` together with the
program counter of the coroutine it references. -/
structure Gate where
  window : Window
  queue : List Nat
  task : Option LoopPC
deriving DecidableEq

/-- The created `_iter_queue` task runs from the top of its body (lines
84-98): with an empty queue it clears the handle and terminates; when rate
limited it suspends in `asyncio.sleep(self._reset_at - time.monotonic())`,
i.e. until time `reset_at`; otherwise it runs the drain loop to completion,
clears the handle and terminates.  Returns the new gate state and the list
of waiters signaled during this segment. -/
def runStart (g : Gate) (now : Nat) : Gate × List Nat :=
  if g.queue.isEmpty then ({ g with task := none }, [])
  else
    let p := g.window.is_rate_limited now
    if p.2 then
      ({ g with window := p.1, task := some (.sleeping p.1.reset_at) }, [])
    else
      let d := drain now p.1 g.queue
      ({ window := d.1, queue := d.2.2, task := none }, d.2.1)

/-- The sleeping `_iter_queue` task resumes after `asyncio.sleep`: it runs
the drain loop once, clears the handle and terminates (lines 93-98). -/
def runResume (g : Gate) (now : Nat) : Gate × List Nat :=
  let d := drain now g.window g.queue
  ({ window := d.1, queue := d.2.2, task := none }, d.2.1)

/-- The synchronous part of `acquire` (lines 73-82): append a fresh event to
the queue and, if `_task is None`, create the drain task (which will run
later, when the event loop regains control). -/
def acquireStep (g : Gate) (e : Nat) : Gate :=
  let g' := { g with queue := g.queue ++ [e] }
  if g'.task = none then { g' with task := some .scheduled } else g'

/-- The `block` method (lines 65-71): `_remaining := 0` and
`_reset_at := time.monotonic() + period`. -/
def blockStep (g : Gate) (now : Nat) : Gate :=
  { g with window := { g.window with remaining := 0, reset_at := now + g.window.period } }

/-- Observable events scheduled by the cooperative event loop: a caller
invoking `acquire` with a fresh event identifier, a caller invoking `block`,
the created drain task starting its body, the sleeping drain task resuming,
and the simulated monotonic clock advancing. -/
inductive Label where
  | acquire (e : Nat) : Label
  | block : Label
  | runStart : Label
  | runResume : Label
  | tick (d : Nat) : Label
deriving DecidableEq

/-- Global system state: the gate, the simulated monotonic clock, the trace
of signaled waiters paired with their signal times, and two ghost observers:
`winSignals` counts the waiters signaled since the current quota window
began (it restarts at each lazy rollover, detected as a change of
`reset_at` during a drain segment), and `live` counts the currently live
drain tasks (incremented when `acquire` creates a task, decremented when a
segment terminates the coroutine). -/
structure Sys where
  gate : Gate
  now : Nat
  signaled : List (Nat × Nat)
  winSignals : Nat
  live : Nat
deriving DecidableEq

/-- System state right after `RateLimiter(period, limit)` is constructed,
with the simulated clock at `t0`. -/
def initSys (period : Nat) (limit : Int) (t0 : Nat) : Sys :=
  { gate := { window := initWindow period limit, queue := [], task := none },
    now := t0, signaled := [], winSignals := 0, live := 0 }

/-- Small-step transition function of the cooperative system; `none` means
the label is not enabled in the given state (a task can only start if it was
created, can only resume once the clock has reached its wake time). -/
def step (s : Sys) : Label → Option Sys
  | .acquire e =>
    some { s with gate := acquireStep s.gate e,
                  live := if s.gate.task = none then s.live + 1 else s.live }
  | .block => some { s with gate := blockStep s.gate s.now }
  | .runStart =>
    if s.gate.task = some .scheduled then
      let r := runStart s.gate s.now
      some { s with gate := r.1,
                    signaled := s.signaled ++ r.2.map (fun e => (e, s.now)),
                    winSignals := (if r.1.window.reset_at = s.gate.window.reset_at
                                   then s.winSignals else 0) + r.2.length,
                    live := if r.1.task = none then s.live - 1 else s.live }
    else none
  | .runResume =>
    match s.gate.task with
    | some (.sleeping wake) =>
      if wake ≤ s.now then
        let r := runResume s.gate s.now
        some { s with gate := r.1,
                      signaled := s.signaled ++ r.2.map (fun e => (e, s.now)),
                      winSignals := (if r.1.window.reset_at = s.gate.window.reset_at
                                     then s.winSignals else 0) + r.2.length,
                      live := if r.1.task = none then s.live - 1 else s.live }
      else none
    | _ => none
  | .tick d => some { s with now := s.now + d }

/-- Run a trace of labels from a state; fails if any label is not enabled. -/
def run (s : Sys) : List Label → Option Sys
  | [] => some s
  | l :: tr =>
    match step s l with
    | some s' => run s' tr
    | none => none

/-- Reachability along enabled steps. -/
inductive Reaches : Sys → Sys → Prop where
  | refl (s : Sys) : Reaches s s
  | tail {s₁ s₂ s₃ : Sys} {l : Label} : Reaches s₁ s₂ → step s₂ l = some s₃ → Reaches s₁ s₃

/-- Decidable test for the presence of an acquire label in a trace. -/
def hasAcquire : List Label → Bool
  | [] => false
  | .acquire _ :: _ => true
  | _ :: tr => hasAcquire tr

/-- The whole `_iter_queue` coroutine of `RateLimiter` run with a fault
oracle: `sleepFault = true` injects an unexpected fault at the
`asyncio.sleep` suspension point (the only await in the body).  The body has
no try/except, so the injected fault escapes the coroutine — modelled as
`Except.error` carrying the state at the moment of the fault, in which the
task handle `_task` is still set because the trailing
`self._task = None` was never reached.  On the fault-free path the sleep
completes at `reset_at` and the drain loop then runs. -/
def iterQueueFromStart (g : Gate) (now : Nat) (sleepFault : Bool) :
    Except Gate (Gate × List Nat) :=
  if g.queue.isEmpty then Except.ok ({ g with task := none }, [])
  else
    let p := g.window.is_rate_limited now
    if p.2 then
      if sleepFault then Except.error { g with window := p.1 }
      else
        let d := drain p.1.reset_at p.1 g.queue
        Except.ok ({ window := d.1, queue := d.2.2, task := none }, d.2.1)
    else
      let d := drain now p.1 g.queue
      Except.ok ({ window := d.1, queue := d.2.2, task := none }, d.2.1)

/-- Outcome of awaiting one queued coroutine in `Client._iter_queue`: it
either raises an exception or returns a response value. -/
inductive CoroOutcome where
  | raises : CoroOutcome
  | returns (v : Nat) : CoroOutcome
deriving DecidableEq

/-- State of `Client` (perspective.py) restricted to what its `_iter_queue`
touches: the pending queue (each entry a key paired with the outcome of
awaiting its coroutine), the keyed result store `_values`, the keys whose
events have been set, and whether `_current_task` is set. -/
structure ClientState where
  queue : List (Nat × CoroOutcome)
  vals : List (Nat × Nat)
  signaled : List Nat
  taskSet : Bool
deriving DecidableEq

/-- Client._iter_queue (perspective.py lines 205-227), written over the
fields of `ClientState` (queue, `_values`, set events, `_current_task`).
The whole body is wrapped in try/except, so a raising coroutine is caught:
the function returns normally with the faulty item already popped, no event
set for it, and `_current_task` left as it was (still set), because the
clearing assignment sits inside the try block after the while loop and is
skipped on the exception path.  When the queue drains normally the handle
is cleared. -/
def clientIterQueue : List (Nat × CoroOutcome) → List (Nat × Nat) → List Nat → Bool → ClientState
  | [], vals, sigs, _ => { queue := [], vals := vals, signaled := sigs, taskSet := false }
  | (k, res) :: rest, vals, sigs, ts =>
    match res with
    | .raises => { queue := rest, vals := vals, signaled := sigs, taskSet := ts }
    | .returns v => clientIterQueue rest (vals ++ [(k, v)]) (sigs ++ [k]) ts

/-- Quota bookkeeping invariant: the configured `period` and `limit` are
positive (the configuration surface of the gate), `remaining` stays within
`0 ≤ remaining ≤ limit`, and the signals issued in the current window plus
the remaining permits never exceed the limit. -/
def QuotaInv (s : Sys) : Prop :=
  0 < s.gate.window.period ∧ 1 ≤ s.gate.window.limit ∧
  0 ≤ s.gate.window.remaining ∧ s.gate.window.remaining ≤ s.gate.window.limit ∧
  s.winSignals + s.gate.window.remaining.toNat ≤ s.gate.window.limit.toNat

/-- State predicate holding after a `block` call at time `T`: the clock is
at or past `T`, and as long as the clock has not reached the end of the
forced window the tracker is pinned exhausted with its reset no earlier
than `T + P`. -/
def Blocked (T P : Nat) (s : Sys) : Prop :=
  T ≤ s.now ∧ s.gate.window.period = P ∧
  (s.now < T + P → s.gate.window.remaining ≤ 0 ∧ T + P ≤ s.gate.window.reset_at)

/-- Task accounting invariant: the ghost count of live drain loops is 1
exactly when the task handle is set, 0 when it is clear. -/
def LiveInv (s : Sys) : Prop :=
  s.live = if s.gate.task = none then 0 else 1

/-- The list of event identifiers appended by the acquire labels of a trace,
in order. -/
def acquiredIds : List Label → List Nat
  | [] => []
  | .acquire e :: tr => e :: acquiredIds tr
  | _ :: tr => acquiredIds tr

theorem is_rate_limited_of_le {w : Window} {now : Nat} (h : w.reset_at ≤ now) :
    w.is_rate_limited now =
      ({ w with remaining := w.limit, reset_at := now + w.period }, false) := by
  simp [Window.is_rate_limited, h]

theorem is_rate_limited_of_lt {w : Window} {now : Nat} (h : now < w.reset_at) :
    w.is_rate_limited now = (w, decide (w.remaining ≤ 0)) := by
  simp [Window.is_rate_limited, Nat.not_le.mpr h]

theorem drain_no_roll (now : Nat) (q : List Nat) :
    ∀ (w : Window), now < w.reset_at →
      drain now w q =
        ({ w with remaining := w.remaining - ↑(min q.length w.remaining.toNat) },
         q.take (min q.length w.remaining.toNat),
         q.drop (min q.length w.remaining.toNat)) := by
  induction q with
  | nil =>
    intro w h
    simp [drain, is_rate_limited_of_lt h]
  | cons e rest ih =>
    intro w h
    simp only [drain, is_rate_limited_of_lt h]
    by_cases hr : w.remaining ≤ 0
    · have h2 : w.remaining.toNat = 0 := by omega
      simp [hr, h2]
    · have hrec := ih { w with remaining := w.remaining - 1 } h
      rw [if_neg (by simpa using hr)]
      rw [hrec]
      simp only [Prod.mk.injEq, Window.mk.injEq, true_and, and_true]
      have hk : (e :: rest).length ⊓ w.remaining.toNat =
          rest.length ⊓ (w.remaining - 1).toNat + 1 := by
        simp [List.length_cons]; omega
      rw [hk, List.take_succ_cons, List.drop_succ_cons]
      refine ⟨?_, rfl, rfl⟩
      omega

theorem drain_roll (now : Nat) (q : List Nat) (w : Window)
    (h : w.reset_at ≤ now) (hp : 0 < w.period) (hl : 1 ≤ w.limit) :
    drain now w q =
      ({ w with remaining := w.limit - ↑(min q.length w.limit.toNat),
                reset_at := now + w.period },
       q.take (min q.length w.limit.toNat),
       q.drop (min q.length w.limit.toNat)) := by
  cases q with
  | nil => simp [drain, is_rate_limited_of_le h]
  | cons e rest =>
    simp only [drain, is_rate_limited_of_le h]
    rw [if_neg (by simp)]
    have hrec := drain_no_roll now rest
      { w with remaining := w.limit - 1, reset_at := now + w.period } (by simp; omega)
    rw [hrec]
    simp only [Prod.mk.injEq, Window.mk.injEq, true_and, and_true]
    have hk : (e :: rest).length ⊓ w.limit.toNat =
        rest.length ⊓ (w.limit - 1).toNat + 1 := by
      simp [List.length_cons]; omega
    rw [hk, List.take_succ_cons, List.drop_succ_cons]
    refine ⟨?_, rfl, rfl⟩
    omega

theorem is_rate_limited_fst_of_true {w : Window} {now : Nat}
    (h : (w.is_rate_limited now).2 = true) :
    (w.is_rate_limited now).1 = w ∧ w.remaining ≤ 0 ∧ now < w.reset_at := by
  by_cases hle : w.reset_at ≤ now
  · rw [is_rate_limited_of_le hle] at h
    simp at h
  · rw [is_rate_limited_of_lt (Nat.not_le.mp hle)] at h
    simp at h
    exact ⟨by rw [is_rate_limited_of_lt (Nat.not_le.mp hle)], h, Nat.not_le.mp hle⟩

theorem acquireStep_window (g : Gate) (e : Nat) : (acquireStep g e).window = g.window := by
  simp only [acquireStep]
  split <;> rfl

theorem acquireStep_queue (g : Gate) (e : Nat) : (acquireStep g e).queue = g.queue ++ [e] := by
  simp only [acquireStep]
  split <;> rfl

theorem acquireStep_task (g : Gate) (e : Nat) :
    (acquireStep g e).task = if g.task = none then some .scheduled else g.task := by
  simp only [acquireStep]
  split <;> simp_all

theorem drain_queue (now : Nat) (q : List Nat) :
    ∀ (w : Window), (drain now w q).2.1 ++ (drain now w q).2.2 = q := by
  induction q with
  | nil => intro w; simp [drain]
  | cons e rest ih =>
    intro w
    simp only [drain]
    by_cases hb : (w.is_rate_limited now).2
    · simp [hb]
    · simp only [Bool.not_eq_true] at hb
      simp [hb, ih]

theorem runStart_queue (g : Gate) (now : Nat) :
    (runStart g now).2 ++ (runStart g now).1.queue = g.queue := by
  simp only [runStart]
  by_cases hq : g.queue.isEmpty
  · simp [hq, List.isEmpty_iff.mp hq]
  · by_cases hb : (g.window.is_rate_limited now).2 <;> simp [hq, hb, drain_queue]

theorem runResume_queue (g : Gate) (now : Nat) :
    (runResume g now).2 ++ (runResume g now).1.queue = g.queue := by
  simp [runResume, drain_queue]

theorem runStart_task_cases (g : Gate) (now : Nat) :
    (runStart g now).1.task = none ∨
    (runStart g now).1.task = some (.sleeping g.window.reset_at) := by
  simp only [runStart]
  by_cases hq : g.queue.isEmpty
  · left; simp [hq]
  · by_cases hb : (g.window.is_rate_limited now).2
    · right
      simp [hq, hb, (is_rate_limited_fst_of_true hb).1]
    · left; simp [hq, hb]

theorem runResume_task (g : Gate) (now : Nat) : (runResume g now).1.task = none := rfl

theorem runStart_empty {g : Gate} (now : Nat) (h : g.queue = []) :
    runStart g now = ({ g with task := none }, []) := by
  simp [runStart, h]

theorem runStart_limited {g : Gate} {now : Nat} (hq : g.queue ≠ [])
    (h1 : now < g.window.reset_at) (h2 : g.window.remaining ≤ 0) :
    runStart g now = ({ g with task := some (.sleeping g.window.reset_at) }, []) := by
  have hb : (g.window.is_rate_limited now).2 = true := by
    rw [is_rate_limited_of_lt h1]; simpa using h2
  simp only [runStart, List.isEmpty_eq_true, hq, if_false, hb, if_true]
  rw [(is_rate_limited_fst_of_true hb).1]

theorem runStart_roll {g : Gate} {now : Nat} (hq : g.queue ≠ [])
    (h : g.window.reset_at ≤ now) (hp : 0 < g.window.period) :
    runStart g now =
      ({ window := { g.window with
            remaining := g.window.limit - ↑(min g.queue.length g.window.limit.toNat),
            reset_at := now + g.window.period },
         queue := g.queue.drop (min g.queue.length g.window.limit.toNat),
         task := none },
       g.queue.take (min g.queue.length g.window.limit.toNat)) := by
  have hroll := is_rate_limited_of_le (w := g.window) h
  have hdrain := drain_no_roll now g.queue
    { g.window with remaining := g.window.limit, reset_at := now + g.window.period }
    (by show now < now + g.window.period; omega)
  simp only [runStart, List.isEmpty_eq_true, hq, if_false, hroll, Bool.false_eq_true, hdrain]

theorem runStart_active {g : Gate} {now : Nat} (hq : g.queue ≠ [])
    (h1 : now < g.window.reset_at) (h2 : 0 < g.window.remaining) :
    runStart g now =
      ({ window := { g.window with
            remaining := g.window.remaining - ↑(min g.queue.length g.window.remaining.toNat) },
         queue := g.queue.drop (min g.queue.length g.window.remaining.toNat),
         task := none },
       g.queue.take (min g.queue.length g.window.remaining.toNat)) := by
  have hb : g.window.is_rate_limited now = (g.window, false) := by
    rw [is_rate_limited_of_lt h1]; simp; omega
  have hdrain := drain_no_roll now g.queue g.window h1
  simp only [runStart, List.isEmpty_eq_true, hq, if_false, hb, Bool.false_eq_true, hdrain]

theorem runResume_roll {g : Gate} {now : Nat}
    (h : g.window.reset_at ≤ now) (hp : 0 < g.window.period) (hl : 1 ≤ g.window.limit) :
    runResume g now =
      ({ window := { g.window with
            remaining := g.window.limit - ↑(min g.queue.length g.window.limit.toNat),
            reset_at := now + g.window.period },
         queue := g.queue.drop (min g.queue.length g.window.limit.toNat),
         task := none },
       g.queue.take (min g.queue.length g.window.limit.toNat)) := by
  simp [runResume, drain_roll now g.queue g.window h hp hl]

theorem runResume_no_roll {g : Gate} {now : Nat} (h : now < g.window.reset_at) :
    runResume g now =
      ({ window := { g.window with
            remaining := g.window.remaining - ↑(min g.queue.length g.window.remaining.toNat) },
         queue := g.queue.drop (min g.queue.length g.window.remaining.toNat),
         task := none },
       g.queue.take (min g.queue.length g.window.remaining.toNat)) := by
  simp [runResume, drain_no_roll now g.queue g.window h]

theorem step_acquire_eq {s s' : Sys} {e : Nat} (h : step s (.acquire e) = some s') :
    s' = { s with gate := acquireStep s.gate e,
                  live := if s.gate.task = none then s.live + 1 else s.live } := by
  simp only [step] at h
  exact (Option.some.inj h).symm

theorem step_block_eq {s s' : Sys} (h : step s .block = some s') :
    s' = { s with gate := blockStep s.gate s.now } := by
  simp only [step] at h
  exact (Option.some.inj h).symm

theorem step_tick_eq {s s' : Sys} {d : Nat} (h : step s (.tick d) = some s') :
    s' = { s with now := s.now + d } := by
  simp only [step] at h
  exact (Option.some.inj h).symm

theorem step_runStart_eq {s s' : Sys} (h : step s .runStart = some s') :
    s.gate.task = some .scheduled ∧
    s' = { s with gate := (runStart s.gate s.now).1,
                  signaled := s.signaled ++ (runStart s.gate s.now).2.map (fun e => (e, s.now)),
                  winSignals := (if (runStart s.gate s.now).1.window.reset_at = s.gate.window.reset_at
                                 then s.winSignals else 0) + (runStart s.gate s.now).2.length,
                  live := if (runStart s.gate s.now).1.task = none then s.live - 1 else s.live } := by
  simp only [step] at h
  by_cases ht : s.gate.task = some .scheduled
  · rw [if_pos ht] at h
    exact ⟨ht, (Option.some.inj h).symm⟩
  · rw [if_neg ht] at h
    exact absurd h (by simp)

theorem step_runResume_eq {s s' : Sys} (h : step s .runResume = some s') :
    (∃ wake, s.gate.task = some (.sleeping wake) ∧ wake ≤ s.now) ∧
    s' = { s with gate := (runResume s.gate s.now).1,
                  signaled := s.signaled ++ (runResume s.gate s.now).2.map (fun e => (e, s.now)),
                  winSignals := (if (runResume s.gate s.now).1.window.reset_at = s.gate.window.reset_at
                                 then s.winSignals else 0) + (runResume s.gate s.now).2.length,
                  live := if (runResume s.gate s.now).1.task = none then s.live - 1 else s.live } := by
  simp only [step] at h
  match hm : s.gate.task with
  | none => simp [hm] at h
  | some .scheduled => simp [hm] at h
  | some (.sleeping wake) =>
    simp only [hm] at h
    by_cases hw : wake ≤ s.now
    · rw [if_pos hw] at h
      exact ⟨⟨wake, rfl, hw⟩, (Option.some.inj h).symm⟩
    · rw [if_neg hw] at h
      exact absurd h (by simp)

theorem liveInv_step {s s' : Sys} {l : Label} (hI : LiveInv s) (h : step s l = some s') :
    LiveInv s' := by
  cases l with
  | acquire e =>
    rw [step_acquire_eq h]
    by_cases ht : s.gate.task = none <;>
      simp [LiveInv, acquireStep_task, ht] at hI ⊢ <;> omega
  | block =>
    rw [step_block_eq h]
    simpa [LiveInv, blockStep] using hI
  | runStart =>
    obtain ⟨ht, rfl⟩ := step_runStart_eq h
    have h1 : s.live = 1 := by simp [LiveInv, ht] at hI; exact hI
    rcases runStart_task_cases s.gate s.now with hc | hc <;> simp [LiveInv, hc, h1]
  | runResume =>
    obtain ⟨⟨wake, hm, hw⟩, rfl⟩ := step_runResume_eq h
    have h1 : s.live = 1 := by simp [LiveInv, hm] at hI; exact hI
    simp [LiveInv, runResume_task, h1]
  | tick d =>
    rw [step_tick_eq h]
    exact hI

theorem quotaInv_step {s s' : Sys} {l : Label} (hI : QuotaInv s) (h : step s l = some s') :
    QuotaInv s' := by
  obtain ⟨hp, hl, h0, hle, hws⟩ := hI
  cases l with
  | acquire e =>
    rw [step_acquire_eq h]
    refine ⟨?_, ?_, ?_, ?_, ?_⟩ <;>
      simp only [acquireStep_window] <;> assumption
  | block =>
    rw [step_block_eq h]
    refine ⟨hp, hl, ?_, ?_, ?_⟩ <;> dsimp only [blockStep] <;> omega
  | tick d =>
    rw [step_tick_eq h]
    exact ⟨hp, hl, h0, hle, hws⟩
  | runStart =>
    obtain ⟨ht, rfl⟩ := step_runStart_eq h
    by_cases hq : s.gate.queue = []
    · rw [runStart_empty s.now hq]
      refine ⟨hp, hl, h0, hle, ?_⟩
      simpa using hws
    · by_cases hr : s.gate.window.reset_at ≤ s.now
      · rw [runStart_roll hq hr hp]
        refine ⟨hp, hl, ?_, ?_, ?_⟩
        · dsimp only; omega
        · dsimp only; omega
        · dsimp only
          rw [if_neg (by omega)]
          simp only [List.length_take]
          omega
      · push_neg at hr
        by_cases hz : s.gate.window.remaining ≤ 0
        · rw [runStart_limited hq hr hz]
          refine ⟨hp, hl, h0, hle, ?_⟩
          simpa using hws
        · push_neg at hz
          rw [runStart_active hq hr hz]
          refine ⟨hp, hl, ?_, ?_, ?_⟩
          · dsimp only; omega
          · dsimp only; omega
          · dsimp only
            rw [if_pos rfl]
            simp only [List.length_take]
            omega
  | runResume =>
    obtain ⟨⟨wake, hm, hw⟩, rfl⟩ := step_runResume_eq h
    by_cases hr : s.gate.window.reset_at ≤ s.now
    · rw [runResume_roll hr hp hl]
      refine ⟨hp, hl, ?_, ?_, ?_⟩
      · dsimp only; omega
      · dsimp only; omega
      · dsimp only
        rw [if_neg (by omega)]
        simp only [List.length_take]
        omega
    · push_neg at hr
      rw [runResume_no_roll hr]
      refine ⟨hp, hl, ?_, ?_, ?_⟩
      · dsimp only; omega
      · dsimp only; omega
      · dsimp only
        rw [if_pos rfl]
        simp only [List.length_take]
        omega

theorem liveInv_reaches {s s' : Sys} (hI : LiveInv s) (h : Reaches s s') : LiveInv s' := by
  induction h with
  | refl => exact hI
  | tail hre hstep ih => exact liveInv_step ih hstep

theorem quotaInv_reaches {s s' : Sys} (hI : QuotaInv s) (h : Reaches s s') : QuotaInv s' := by
  induction h with
  | refl => exact hI
  | tail hre hstep ih => exact quotaInv_step ih hstep

theorem is_rate_limited_window_const (w : Window) (now : Nat) :
    (w.is_rate_limited now).1.period = w.period ∧ (w.is_rate_limited now).1.limit = w.limit := by
  by_cases hle : w.reset_at ≤ now
  · rw [is_rate_limited_of_le hle]; exact ⟨rfl, rfl⟩
  · rw [is_rate_limited_of_lt (Nat.not_le.mp hle)]; exact ⟨rfl, rfl⟩

theorem drain_window_const (now : Nat) (q : List Nat) :
    ∀ (w : Window), (drain now w q).1.period = w.period ∧ (drain now w q).1.limit = w.limit := by
  induction q with
  | nil => intro w; simpa [drain] using is_rate_limited_window_const w now
  | cons e rest ih =>
    intro w
    obtain ⟨hip, hil⟩ := is_rate_limited_window_const w now
    simp only [drain]
    by_cases hb : (w.is_rate_limited now).2
    · simp [hb, hip, hil]
    · simp only [Bool.not_eq_true] at hb
      simp [hb]
      exact ⟨(ih _).1.trans hip, (ih _).2.trans hil⟩

theorem runStart_window_const (g : Gate) (now : Nat) :
    (runStart g now).1.window.period = g.window.period ∧
    (runStart g now).1.window.limit = g.window.limit := by
  simp only [runStart]
  by_cases hq : g.queue.isEmpty
  · simp [hq]
  · by_cases hb : (g.window.is_rate_limited now).2
    · simp [hq, hb, is_rate_limited_window_const]
    · obtain ⟨hp2, hl2⟩ := drain_window_const now g.queue (g.window.is_rate_limited now).1
      obtain ⟨hip, hil⟩ := is_rate_limited_window_const g.window now
      simp [hq, hb, hp2, hl2, hip, hil]

theorem runResume_window_const (g : Gate) (now : Nat) :
    (runResume g now).1.window.period = g.window.period ∧
    (runResume g now).1.window.limit = g.window.limit := by
  simpa [runResume] using drain_window_const now g.queue g.window

theorem map_fst_stamp (l : List Nat) (t : Nat) :
    List.map Prod.fst (List.map (fun e => (e, t)) l) = l := by
  induction l with
  | nil => rfl
  | cons a l ih => simp [ih]

theorem fifo_step {s s' : Sys} {l : Label} (h : step s l = some s') :
    s'.signaled.map Prod.fst ++ s'.gate.queue =
      (s.signaled.map Prod.fst ++ s.gate.queue) ++ acquiredIds [l] := by
  cases l with
  | acquire e =>
    rw [step_acquire_eq h]
    simp [acquireStep_queue, acquiredIds]
  | block =>
    rw [step_block_eq h]
    simp [blockStep, acquiredIds]
  | tick d =>
    rw [step_tick_eq h]
    simp [acquiredIds]
  | runStart =>
    obtain ⟨ht, rfl⟩ := step_runStart_eq h
    have hkey := runStart_queue s.gate s.now
    simp only [acquiredIds, List.append_nil, List.map_append]
    rw [map_fst_stamp, List.append_assoc, hkey]
  | runResume =>
    obtain ⟨⟨wake, hm, hw⟩, rfl⟩ := step_runResume_eq h
    have hkey := runResume_queue s.gate s.now
    simp only [acquiredIds, List.append_nil, List.map_append]
    rw [map_fst_stamp, List.append_assoc, hkey]

theorem fifo_run : ∀ (tr : List Label) {s s' : Sys}, run s tr = some s' →
    s'.signaled.map Prod.fst ++ s'.gate.queue =
      (s.signaled.map Prod.fst ++ s.gate.queue) ++ acquiredIds tr := by
  intro tr
  induction tr with
  | nil =>
    intro s s' hr
    simp only [run, Option.some.injEq] at hr
    subst hr
    simp [acquiredIds]
  | cons l tr ih =>
    intro s s' hr
    cases hstep : step s l with
    | none => simp [run, hstep] at hr
    | some s₁ =>
      simp only [run, hstep] at hr
      have h1 := fifo_step hstep
      have h2 := ih hr
      rw [h2, h1]
      cases l <;> simp [acquiredIds]

theorem stuck_no_acquire : ∀ (tr : List Label) {s s' : Sys}, s.gate.task = none →
    hasAcquire tr = false → run s tr = some s' →
    s'.signaled = s.signaled ∧ s'.gate.task = none ∧ s'.gate.queue = s.gate.queue := by
  intro tr
  induction tr with
  | nil =>
    intro s s' ht ha hr
    simp only [run, Option.some.injEq] at hr
    subst hr
    exact ⟨rfl, ht, rfl⟩
  | cons l tr ih =>
    intro s s' ht ha hr
    cases l with
    | acquire e => simp [hasAcquire] at ha
    | block =>
      simp only [run, step] at hr
      have := ih (s := { s with gate := blockStep s.gate s.now })
        (by simpa [blockStep] using ht) (by simpa [hasAcquire] using ha) hr
      simpa [blockStep] using this
    | tick d =>
      simp only [run, step] at hr
      have := ih (s := { s with now := s.now + d }) ht
        (by simpa [hasAcquire] using ha) hr
      simpa using this
    | runStart =>
      simp only [run, step, ht] at hr
      exact absurd hr (by simp)
    | runResume =>
      simp only [run, step, ht] at hr
      exact absurd hr (by simp)

theorem blocked_step {T P : Nat} {s s' : Sys} {l : Label} (hB : Blocked T P s)
    (h : step s l = some s') :
    Blocked T P s' ∧ ∀ pr ∈ s'.signaled, pr ∈ s.signaled ∨ T + P ≤ pr.2 := by
  obtain ⟨hT, hper, hcond⟩ := hB
  cases l with
  | acquire e =>
    rw [step_acquire_eq h]
    exact ⟨⟨hT, by simpa [acquireStep_window] using hper,
      fun hn => by simpa [acquireStep_window] using hcond hn⟩,
      fun pr hpr => Or.inl hpr⟩
  | block =>
    rw [step_block_eq h]
    refine ⟨⟨hT, by simpa [blockStep] using hper, fun hn => ?_⟩, fun pr hpr => Or.inl hpr⟩
    dsimp only [blockStep]
    constructor
    · omega
    · dsimp only
      omega
  | tick d =>
    rw [step_tick_eq h]
    refine ⟨⟨?_, hper, fun hn => ?_⟩, fun pr hpr => Or.inl hpr⟩
    · show T ≤ s.now + d
      omega
    · replace hn : s.now + d < T + P := hn
      exact hcond (by omega)
  | runStart =>
    obtain ⟨ht, rfl⟩ := step_runStart_eq h
    by_cases hn : s.now < T + P
    · obtain ⟨hrem, hres⟩ := hcond hn
      by_cases hq : s.gate.queue = []
      · rw [runStart_empty s.now hq]
        exact ⟨⟨hT, hper, fun _ => ⟨hrem, hres⟩⟩, fun pr hpr => Or.inl (by simpa using hpr)⟩
      · rw [runStart_limited hq (by omega) hrem]
        exact ⟨⟨hT, hper, fun _ => ⟨hrem, hres⟩⟩, fun pr hpr => Or.inl (by simpa using hpr)⟩
    · push_neg at hn
      obtain ⟨hp2, _⟩ := runStart_window_const s.gate s.now
      refine ⟨⟨hT, by rw [hp2]; exact hper,
        fun hlt => absurd (show s.now < T + P from hlt) (by omega)⟩, fun pr hpr => ?_⟩
      simp only [List.mem_append] at hpr
      rcases hpr with hin | hin
      · exact Or.inl hin
      · right
        obtain ⟨e, _, hpe⟩ := List.mem_map.mp hin
        rw [← hpe]
        exact hn
  | runResume =>
    obtain ⟨⟨wake, hm, hw⟩, rfl⟩ := step_runResume_eq h
    by_cases hn : s.now < T + P
    · obtain ⟨hrem, hres⟩ := hcond hn
      have hlt : s.now < s.gate.window.reset_at := by omega
      rw [runResume_no_roll hlt]
      have htn : s.gate.window.remaining.toNat = 0 := by omega
      refine ⟨⟨hT, hper, fun _ => ⟨by dsimp only; omega, by dsimp only; omega⟩⟩,
        fun pr hpr => Or.inl ?_⟩
      simpa [htn] using hpr
    · push_neg at hn
      obtain ⟨hp2, _⟩ := runResume_window_const s.gate s.now
      refine ⟨⟨hT, by rw [hp2]; exact hper,
        fun hlt => absurd (show s.now < T + P from hlt) (by omega)⟩, fun pr hpr => ?_⟩
      simp only [List.mem_append] at hpr
      rcases hpr with hin | hin
      · exact Or.inl hin
      · right
        obtain ⟨e, _, hpe⟩ := List.mem_map.mp hin
        rw [← hpe]
        exact hn

theorem blocked_run : ∀ (tr : List Label) {T P : Nat} {s s' : Sys}, Blocked T P s →
    run s tr = some s' → ∀ pr ∈ s'.signaled, pr ∈ s.signaled ∨ T + P ≤ pr.2 := by
  intro tr
  induction tr with
  | nil =>
    intro T P s s' hB hr
    simp only [run, Option.some.injEq] at hr
    subst hr
    exact fun pr hpr => Or.inl hpr
  | cons l tr ih =>
    intro T P s s' hB hr
    cases hstep : step s l with
    | none => simp [run, hstep] at hr
    | some s₁ =>
      simp only [run, hstep] at hr
      obtain ⟨hB1, hsig⟩ := blocked_step hB hstep
      intro pr hpr
      rcases ih hB1 hr pr hpr with hin | hge
      · rcases hsig pr hin with hin2 | hge2
        · exact Or.inl hin2
        · exact Or.inr hge2
      · exact Or.inr hge

theorem config_step {s s' : Sys} {l : Label} (h : step s l = some s') :
    s'.gate.window.period = s.gate.window.period ∧
    s'.gate.window.limit = s.gate.window.limit := by
  cases l with
  | acquire e => rw [step_acquire_eq h]; simp [acquireStep_window]
  | block => rw [step_block_eq h]; exact ⟨rfl, rfl⟩
  | tick d => rw [step_tick_eq h]; exact ⟨rfl, rfl⟩
  | runStart =>
    obtain ⟨ht, rfl⟩ := step_runStart_eq h
    exact runStart_window_const s.gate s.now
  | runResume =>
    obtain ⟨⟨wake, hm, hw⟩, rfl⟩ := step_runResume_eq h
    exact runResume_window_const s.gate s.now

theorem config_reaches {s s' : Sys} (h : Reaches s s') :
    s'.gate.window.period = s.gate.window.period ∧
    s'.gate.window.limit = s.gate.window.limit := by
  induction h with
  | refl => exact ⟨rfl, rfl⟩
  | tail hre hstep ih =>
    obtain ⟨h1, h2⟩ := config_step hstep
    exact ⟨h1.trans ih.1, h2.trans ih.2⟩

/-- C5: the exhaustion check `is_rate_limited` behaves as specified for
every window state: once the current time has passed `reset_at` it rolls
the window over, resetting `remaining` to `limit` and `reset_at` to
`now + period`, and reports not exhausted; otherwise it mutates nothing and
reports exhausted exactly when `remaining ≤ 0`. -/
theorem c5_is_exhausted_contract (w : Window) (now : Nat) :
    (w.reset_at ≤ now →
      w.is_rate_limited now =
        ({ w with remaining := w.limit, reset_at := now + w.period }, false)) ∧
    (now < w.reset_at →
      w.is_rate_limited now = (w, decide (w.remaining ≤ 0))) :=
  ⟨fun h => is_rate_limited_of_le h, fun h => is_rate_limited_of_lt h⟩

/-- Witness for C5 at concrete windows: an expired window rolls over and
reports not exhausted; a live window is returned unchanged with the
remaining-based verdict. -/
theorem c5_is_exhausted_contract_witness :
    (initWindow 60 2).is_rate_limited 0 =
      ({ initWindow 60 2 with remaining := 2, reset_at := 60 }, false) ∧
    Window.is_rate_limited { initWindow 60 2 with reset_at := 10 } 0 =
      ({ initWindow 60 2 with reset_at := 10 }, decide ((2 : Int) ≤ 0)) :=
  ⟨(c5_is_exhausted_contract (initWindow 60 2) 0).1 (by decide),
   (c5_is_exhausted_contract { initWindow 60 2 with reset_at := 10 } 0).2 (by decide)⟩

/-- C9: under the configured positive limit, `is_rate_limited` is
idempotent at a fixed clock reading: re-running it on the window it just
returned reproduces the same window and the same boolean, with no
intervening debit or block. -/
theorem c9_is_exhausted_idempotent (w : Window) (now : Nat) (hl : 0 < w.limit) :
    ((w.is_rate_limited now).1.is_rate_limited now) = w.is_rate_limited now := by
  by_cases h : w.reset_at ≤ now
  · rw [is_rate_limited_of_le h]
    by_cases hp : w.period = 0
    · rw [is_rate_limited_of_le (by simp [hp])]
    · rw [is_rate_limited_of_lt (by simp; omega)]
      have : ¬ (w.limit ≤ 0) := by omega
      simp [this]
  · rw [is_rate_limited_of_lt (Nat.not_le.mp h)]
    exact is_rate_limited_of_lt (Nat.not_le.mp h)

/-- Witness for C9: idempotence observed on a freshly expired window. -/
theorem c9_is_exhausted_idempotent_witness :
    (((initWindow 60 2).is_rate_limited 5).1.is_rate_limited 5) =
      (initWindow 60 2).is_rate_limited 5 :=
  c9_is_exhausted_idempotent (initWindow 60 2) 5 (by decide)

/-- C7: in every reachable state there is at most one live drain loop, and
when the task handle is clear no loop is live, so `acquire` creating a task
only when `_task is None` never yields two concurrent loops. -/
theorem c7_single_pacing_loop (p t0 : Nat) (l : Int) {s : Sys}
    (h : Reaches (initSys p l t0) s) :
    s.live ≤ 1 ∧ (s.gate.task = none → s.live = 0) := by
  have hI : LiveInv s := liveInv_reaches (by simp [LiveInv, initSys]) h
  rw [LiveInv] at hI
  by_cases ht : s.gate.task = none <;> simp [ht] at hI <;> simp [hI, ht]

/-- Witness for C7 in the state reached after one acquire call created the
drain task. -/
theorem c7_single_pacing_loop_witness :
    ({ gate := { window := initWindow 60 2, queue := [5], task := some .scheduled },
       now := 0, signaled := [], winSignals := 0, live := 1 } : Sys).live ≤ 1 ∧
    (({ gate := { window := initWindow 60 2, queue := [5], task := some .scheduled },
        now := 0, signaled := [], winSignals := 0, live := 1 } : Sys).gate.task = none →
      ({ gate := { window := initWindow 60 2, queue := [5], task := some .scheduled },
         now := 0, signaled := [], winSignals := 0, live := 1 } : Sys).live = 0) :=
  c7_single_pacing_loop 60 0 2 (Reaches.tail (Reaches.refl _) (rfl :
    step (initSys 60 2 0) (.acquire 5) = some _))

/-- C2: with the configured positive period and limit, the number of
waiters signaled inside any single quota window (the ghost `winSignals`,
reset at every rollover) never exceeds the limit, in every reachable
state: each signal debits one permit and the drain stops on exhaustion. -/
theorem c2_window_signal_bound {p t0 : Nat} {l : Int} {s : Sys}
    (hp : 0 < p) (hl : 1 ≤ l) (h : Reaches (initSys p l t0) s) :
    s.winSignals ≤ l.toNat := by
  have hI : QuotaInv s := by
    refine quotaInv_reaches ⟨hp, hl, ?_, ?_, ?_⟩ h
    · show (0 : Int) ≤ l
      omega
    · show l ≤ l
      omega
    · show 0 + l.toNat ≤ l.toNat
      omega
  obtain ⟨hcp, hcl⟩ := config_reaches h
  obtain ⟨_, _, h0, _, hws⟩ := hI
  have hcl2 : s.gate.window.limit = l := hcl
  omega

/-- Witness for C2 in the state reached after one acquire call and a full
drain pass signaled one waiter inside the current window. -/
theorem c2_window_signal_bound_witness :
    ({ gate := { window := { period := 60, limit := 2, remaining := 1, reset_at := 65 },
                 queue := [], task := none },
       now := 5, signaled := [(9, 5)], winSignals := 1, live := 0 } : Sys).winSignals ≤
      (2 : Int).toNat :=
  c2_window_signal_bound (by decide) (by decide)
    (Reaches.tail (Reaches.tail (Reaches.refl (initSys 60 2 5))
      (by decide : step (initSys 60 2 5) (.acquire 9) =
        some { gate := { window := initWindow 60 2, queue := [9], task := some .scheduled },
               now := 5, signaled := [], winSignals := 0, live := 1 }))
      (by decide : step { gate := { window := initWindow 60 2, queue := [9],
                                    task := some LoopPC.scheduled },
                          now := 5, signaled := [], winSignals := 0, live := 1 } .runStart =
        some { gate := { window := { period := 60, limit := 2, remaining := 1, reset_at := 65 },
                         queue := [], task := none },
               now := 5, signaled := [(9, 5)], winSignals := 1, live := 0 }))

/-- C8: with the configured positive period and limit, every state
reachable through the public operations keeps `0 ≤ remaining ≤ limit`: the
rollover resets `remaining` to the limit, `block` writes 0, and the in-loop
debit only happens right after the tracker reported not exhausted. -/
theorem c8_remaining_bounds {p t0 : Nat} {l : Int} {s : Sys}
    (hp : 0 < p) (hl : 1 ≤ l) (h : Reaches (initSys p l t0) s) :
    0 ≤ s.gate.window.remaining ∧ s.gate.window.remaining ≤ l := by
  have hI : QuotaInv s := by
    refine quotaInv_reaches ⟨hp, hl, ?_, ?_, ?_⟩ h
    · show (0 : Int) ≤ l
      omega
    · show l ≤ l
      omega
    · show 0 + l.toNat ≤ l.toNat
      omega
  obtain ⟨hcp, hcl⟩ := config_reaches h
  obtain ⟨_, _, h0, hle, _⟩ := hI
  have hcl2 : s.gate.window.limit = l := hcl
  exact ⟨h0, by omega⟩

/-- Witness for C8 in the state reached right after a `block` call. -/
theorem c8_remaining_bounds_witness :
    (0 : Int) ≤ ({ gate := { window := { period := 60, limit := 2, remaining := 0, reset_at := 65 },
                             queue := [], task := none },
                   now := 5, signaled := [], winSignals := 0, live := 0 } : Sys).gate.window.remaining ∧
    ({ gate := { window := { period := 60, limit := 2, remaining := 0, reset_at := 65 },
                 queue := [], task := none },
       now := 5, signaled := [], winSignals := 0, live := 0 } : Sys).gate.window.remaining ≤ 2 :=
  c8_remaining_bounds (by decide) (by decide)
    (Reaches.tail (Reaches.refl (initSys 60 2 5))
      (by decide : step (initSys 60 2 5) .block =
        some { gate := { window := { period := 60, limit := 2, remaining := 0, reset_at := 65 },
                         queue := [], task := none },
               now := 5, signaled := [], winSignals := 0, live := 0 }))

/-- C3: strict FIFO: in every run of the system from a fresh gate, the ids
already signaled, in signal order, followed by the ids still queued, in
queue order, are exactly the acquire arrivals in call order — so release
order equals arrival order, with no reordering even across an exhaustion
boundary where the loop suspends. -/
theorem c3_fifo_order (p t0 : Nat) (l : Int) (tr : List Label) {s : Sys}
    (h : run (initSys p l t0) tr = some s) :
    s.signaled.map Prod.fst ++ s.gate.queue = acquiredIds tr := by
  have hf := fifo_run tr h
  simpa [initSys] using hf

/-- Witness for C3 on a trace whose drain suspends at an exhaustion
boundary between two releases: arrivals 1, 2, 3; waiter 2 is released in a
later window, waiter 3 is still queued, and the order is preserved. -/
theorem c3_fifo_order_witness :
    ([( 1, 0), (2, 60)] : List (Nat × Nat)).map Prod.fst ++ [3] =
      acquiredIds [.acquire 1, .runStart, .acquire 2, .acquire 3, .runStart,
                   .tick 60, .runResume] :=
  c3_fifo_order 60 0 1
    [.acquire 1, .runStart, .acquire 2, .acquire 3, .runStart, .tick 60, .runResume]
    (by decide : run (initSys 60 1 0) [.acquire 1, .runStart, .acquire 2, .acquire 3,
        .runStart, .tick 60, .runResume] =
      some { gate := { window := { period := 60, limit := 1, remaining := 0, reset_at := 120 },
                       queue := [3], task := none },
             now := 60, signaled := [(1, 0), (2, 60)], winSignals := 1, live := 0 })

/-- C4: `block` called at time T writes `remaining := 0` and
`reset_at := T + period`, and from then on — whatever the prior window and
pacing-task state, including a loop already sleeping toward an earlier
reset — every signal in any continuation either predates the block or is
issued at a time at least `T + period`. -/
theorem c4_force_exhaust_window (s₀ : Sys) (tr : List Label) {s₁ s₂ : Sys}
    (hb : step s₀ .block = some s₁) (hr : run s₁ tr = some s₂) :
    s₁.gate.window.remaining = 0 ∧
    s₁.gate.window.reset_at = s₀.now + s₀.gate.window.period ∧
    ∀ pr ∈ s₂.signaled, pr ∈ s₁.signaled ∨ s₀.now + s₀.gate.window.period ≤ pr.2 := by
  have he := step_block_eq hb
  subst he
  refine ⟨rfl, rfl, ?_⟩
  exact blocked_run tr (T := s₀.now) (P := s₀.gate.window.period)
    ⟨le_refl _, rfl, fun _ => ⟨le_refl 0, le_refl _⟩⟩ hr

/-- Witness for C4: block at T=10 while a loop is already sleeping toward
the earlier reset t=30; when that loop resumes at t=30 it signals nobody. -/
theorem c4_force_exhaust_window_witness :
    ({ gate := { window := { period := 60, limit := 1, remaining := 0, reset_at := 70 },
                 queue := [4], task := some (.sleeping 30) },
       now := 10, signaled := [], winSignals := 0, live := 1 } : Sys).gate.window.remaining = 0 ∧
    ({ gate := { window := { period := 60, limit := 1, remaining := 0, reset_at := 70 },
                 queue := [4], task := some (.sleeping 30) },
       now := 10, signaled := [], winSignals := 0, live := 1 } : Sys).gate.window.reset_at =
      10 + 60 :=
  ⟨(c4_force_exhaust_window
      { gate := { window := { period := 60, limit := 1, remaining := 0, reset_at := 30 },
                  queue := [4], task := some (.sleeping 30) },
        now := 10, signaled := [], winSignals := 0, live := 1 }
      [.tick 20, .runResume]
      (by decide : step { gate := { window := { period := 60, limit := 1, remaining := 0,
                                                reset_at := 30 },
                                    queue := [4], task := some (.sleeping 30) },
                          now := 10, signaled := [], winSignals := 0, live := 1 } .block =
        some { gate := { window := { period := 60, limit := 1, remaining := 0, reset_at := 70 },
                         queue := [4], task := some (.sleeping 30) },
               now := 10, signaled := [], winSignals := 0, live := 1 })
      (by decide : run { gate := { window := { period := 60, limit := 1, remaining := 0,
                                               reset_at := 70 },
                                   queue := [4], task := some (.sleeping 30) },
                         now := 10, signaled := [], winSignals := 0, live := 1 }
          [.tick 20, .runResume] =
        some { gate := { window := { period := 60, limit := 1, remaining := 0, reset_at := 70 },
                         queue := [4], task := none },
               now := 30, signaled := [], winSignals := 0, live := 0 })).1,
   (c4_force_exhaust_window
      { gate := { window := { period := 60, limit := 1, remaining := 0, reset_at := 30 },
                  queue := [4], task := some (.sleeping 30) },
        now := 10, signaled := [], winSignals := 0, live := 1 }
      [.tick 20, .runResume]
      (by decide : step { gate := { window := { period := 60, limit := 1, remaining := 0,
                                                reset_at := 30 },
                                    queue := [4], task := some (.sleeping 30) },
                          now := 10, signaled := [], winSignals := 0, live := 1 } .block =
        some { gate := { window := { period := 60, limit := 1, remaining := 0, reset_at := 70 },
                         queue := [4], task := some (.sleeping 30) },
               now := 10, signaled := [], winSignals := 0, live := 1 })
      (by decide : run { gate := { window := { period := 60, limit := 1, remaining := 0,
                                               reset_at := 70 },
                                   queue := [4], task := some (.sleeping 30) },
                         now := 10, signaled := [], winSignals := 0, live := 1 }
          [.tick 20, .runResume] =
        some { gate := { window := { period := 60, limit := 1, remaining := 0, reset_at := 70 },
                         queue := [4], task := none },
               now := 30, signaled := [], winSignals := 0, live := 0 })).2.1⟩

/-- C1 (code-bug evidence): with limit=2 and period=60, three acquire
calls enqueued at t=0 before the drain task first runs; the task signals
waiters 1 and 2 in call order, then terminates and clears the handle while
waiter 3 is still queued (the queue is not empty at termination); and in
any continuation that contains no further acquire — in particular advancing
simulated time to t=60 and beyond — waiter 3 is never signaled.  The loop
does not loop back as the spec's step 4 and scenario demand. -/
theorem c1_third_waiter_starved :
    run (initSys 60 2 0) [.acquire 1, .acquire 2, .acquire 3, .runStart] =
      some { gate := { window := { period := 60, limit := 2, remaining := 0, reset_at := 60 },
                       queue := [3], task := none },
             now := 0, signaled := [(1, 0), (2, 0)], winSignals := 2, live := 0 } ∧
    (∀ (tr : List Label) (s' : Sys), hasAcquire tr = false →
      run { gate := { window := { period := 60, limit := 2, remaining := 0, reset_at := 60 },
                      queue := [3], task := none },
            now := 0, signaled := [(1, 0), (2, 0)], winSignals := 2, live := 0 } tr = some s' →
      s'.signaled = [(1, 0), (2, 0)] ∧ s'.gate.queue = [3]) := by
  refine ⟨by decide, ?_⟩
  intro tr s' ha hr
  obtain ⟨h1, h2, h3⟩ := stuck_no_acquire tr rfl ha hr
  exact ⟨h1, h3⟩

/-- Witness for C1: advancing the clock past the window end twice, with no
further acquire, leaves waiter 3 unsignaled. -/
theorem c1_third_waiter_starved_witness :
    hasAcquire [Label.tick 60, Label.tick 60] = false ∧
    (({ gate := { window := { period := 60, limit := 2, remaining := 0, reset_at := 60 },
                  queue := [3], task := none },
        now := 120, signaled := [(1, 0), (2, 0)], winSignals := 2, live := 0 } : Sys).signaled =
        [(1, 0), (2, 0)] ∧
      ({ gate := { window := { period := 60, limit := 2, remaining := 0, reset_at := 60 },
                   queue := [3], task := none },
         now := 120, signaled := [(1, 0), (2, 0)], winSignals := 2, live := 0 } : Sys).gate.queue =
        [3]) :=
  ⟨by decide,
   c1_third_waiter_starved.2 [Label.tick 60, Label.tick 60]
     { gate := { window := { period := 60, limit := 2, remaining := 0, reset_at := 60 },
                 queue := [3], task := none },
       now := 120, signaled := [(1, 0), (2, 0)], winSignals := 2, live := 0 }
     (by decide) (by decide)⟩

/-- C6 counterexample: a concrete exhausted gate with one queued waiter;
the RateLimiter pacing loop reaches its only suspension point (the sleep)
and an unexpected fault injected there ends the coroutine on the exception
path (`Except.error`) — there is no try/except anywhere in
`RateLimiter._iter_queue`, so the fault is not caught within the loop, and
the task handle is still set in the state left behind. -/
theorem c6_fault_not_caught_counterexample :
    iterQueueFromStart
        { window := { period := 60, limit := 2, remaining := 0, reset_at := 100 },
          queue := [7], task := some .scheduled } 50 true =
      Except.error
        { window := { period := 60, limit := 2, remaining := 0, reset_at := 100 },
          queue := [7], task := some .scheduled } ∧
    ({ window := { period := 60, limit := 2, remaining := 0, reset_at := 100 },
       queue := [7], task := some .scheduled } : Gate).task ≠ none :=
  ⟨rfl, by decide⟩

/-- C6 amended: a fault at the pacing loop's suspension point escapes
`RateLimiter._iter_queue` uncaught, with the gate state — queue, window and
still-set task handle — exactly as it was, so it never reaches any caller;
`acquire` itself has no error path and still just appends its waiter; and
it is `Client._iter_queue` in perspective.py that catches a raising
coroutine inside its try/except and returns normally, with the faulty item
popped, nobody newly signaled and `_current_task` left set. -/
theorem c6_fault_policy_amended :
    (∀ (g : Gate) (now : Nat), g.queue ≠ [] → (g.window.is_rate_limited now).2 = true →
      iterQueueFromStart g now true = Except.error g) ∧
    (∀ (g : Gate) (e : Nat), (acquireStep g e).queue = g.queue ++ [e]) ∧
    (∀ (k : Nat) (rest : List (Nat × CoroOutcome)) (vals : List (Nat × Nat))
        (sigs : List Nat),
      clientIterQueue ((k, CoroOutcome.raises) :: rest) vals sigs true =
        { queue := rest, vals := vals, signaled := sigs, taskSet := true }) := by
  refine ⟨?_, acquireStep_queue, ?_⟩
  · intro g now hq hb
    have h1 := (is_rate_limited_fst_of_true hb).1
    simp only [iterQueueFromStart, List.isEmpty_eq_true, hq, if_false, hb, if_true, h1]
  · intro k rest vals sigs
    rfl

/-- Witness for C6 amended, at a concrete exhausted gate, a concrete
acquire, and a concrete client queue whose head coroutine raises. -/
theorem c6_fault_policy_amended_witness :
    iterQueueFromStart
        { window := { period := 60, limit := 2, remaining := 0, reset_at := 100 },
          queue := [8], task := some .scheduled } 40 true =
      Except.error
        { window := { period := 60, limit := 2, remaining := 0, reset_at := 100 },
          queue := [8], task := some .scheduled } ∧
    (acquireStep { window := initWindow 60 2, queue := [], task := none } 5).queue =
      [] ++ [5] ∧
    clientIterQueue [(3, CoroOutcome.raises), (4, CoroOutcome.returns 9)] [] [] true =
      { queue := [(4, CoroOutcome.returns 9)], vals := [], signaled := [], taskSet := true } :=
  ⟨c6_fault_policy_amended.1
      { window := { period := 60, limit := 2, remaining := 0, reset_at := 100 },
        queue := [8], task := some .scheduled } 40 (by decide) (by decide),
   c6_fault_policy_amended.2.1 { window := initWindow 60 2, queue := [], task := none } 5,
   c6_fault_policy_amended.2.2 3 [(4, CoroOutcome.returns 9)] [] []⟩

/-- C10: a fresh RateLimiter starts with `reset_at = 0` and
`remaining = limit`, so for any positive period and limit the very first
exhaustion check observes an already expired window, rolls it over and
reports not exhausted; hence the first acquire on a new gate is signaled
immediately, at the very instant of the drain pass, with one permit
debited and no waiting. -/
theorem c10_first_acquire_immediate (p t e : Nat) (l : Int)
    (hp : 0 < p) (hl : 0 < l) :
    (initWindow p l).reset_at = 0 ∧ (initWindow p l).remaining = l ∧
    ((initWindow p l).is_rate_limited t).2 = false ∧
    run (initSys p l t) [.acquire e, .runStart] =
      some { gate := { window := { period := p, limit := l, remaining := l - 1,
                                   reset_at := t + p },
                       queue := [], task := none },
             now := t, signaled := [(e, t)], winSignals := 1, live := 0 } := by
  refine ⟨rfl, rfl, ?_, ?_⟩
  · rw [is_rate_limited_of_le (Nat.zero_le t)]
  · have hrs : runStart ⟨initWindow p l, [e], some LoopPC.scheduled⟩ t =
        (⟨⟨p, l, l - 1, t + p⟩, [], none⟩, [e]) := by
      have h2 := @runStart_roll ⟨initWindow p l, [e], some LoopPC.scheduled⟩ t
        (by simp) (Nat.zero_le t) hp
      have hm : min ([e] : List Nat).length l.toNat = 1 := by simp; omega
      rw [h2]
      dsimp only [initWindow]
      rw [hm]
      rfl
    have h1 : run (initSys p l t) [Label.acquire e, Label.runStart] =
        run ⟨⟨initWindow p l, [e], some LoopPC.scheduled⟩, t, [], 0, 1⟩ [Label.runStart] := rfl
    rw [h1]
    have hstep : step (⟨⟨initWindow p l, [e], some LoopPC.scheduled⟩, t, [], 0, 1⟩ : Sys)
        Label.runStart =
        some ⟨⟨⟨p, l, l - 1, t + p⟩, [], none⟩, t, [(e, t)], 1, 0⟩ := by
      simp only [step, if_true]
      rw [hrs]
      simp only [ite_self]
      rfl
    simp only [run, hstep]

/-- Witness for C10 with period 60, limit 2, clock at 5. -/
theorem c10_first_acquire_immediate_witness :
    (initWindow 60 2).reset_at = 0 ∧ (initWindow 60 2).remaining = 2 ∧
    ((initWindow 60 2).is_rate_limited 5).2 = false ∧
    run (initSys 60 2 5) [.acquire 9, .runStart] =
      some { gate := { window := { period := 60, limit := 2, remaining := 1, reset_at := 65 },
                       queue := [], task := none },
             now := 5, signaled := [(9, 5)], winSignals := 1, live := 0 } :=
  c10_first_acquire_immediate 60 5 9 2 (by decide) (by decide)

end Kosu
